import Mathlib

/-!
Shallow embedding of `generateFileTree.py`: a depth-first directory walker
that collects `{folder, name}` records, skipping `images` (case-insensitive)
and `.git` directories and (per its documentation) root-level files.

The filesystem is modelled as a tree of entries; a directory's listing can
also fail (permission denied, or the directory vanished), matching the
`PermissionError` / `FileNotFoundError` handlers around `os.listdir`.
Absolute paths are modelled as lists of path segments (POSIX, `os.sep = "/"`).
-/

namespace GenerateFileTree

/-- One record of the program's JSON output: `{"folder": ..., "name": ...}`. -/
structure FileRecord where
  folder : String
  name : String
deriving DecidableEq, Repr

mutual

/-- A filesystem entry seen while walking.  A directory either lists
successfully (`dir`), raises `PermissionError` on `os.listdir`
(`dirPermDenied`), or raises `FileNotFoundError` (`dirNotFound`).
`file` covers every non-directory object (`os.path.isdir` false). -/
inductive Entry : Type where
  | file (name : String) : Entry
  | dir (name : String) (children : Entries) : Entry
  | dirPermDenied (name : String) : Entry
  | dirNotFound (name : String) : Entry

/-- The ordered result of `os.listdir`: the entries of one directory, in
listing order. -/
inductive Entries : Type where
  | nil : Entries
  | cons (e : Entry) (rest : Entries) : Entries

end

/-- Concatenation of two listings (used to speak about listing order). -/
def Entries.append : Entries → Entries → Entries
  | Entries.nil, ys => ys
  | Entries.cons x xs, ys => Entries.cons x (xs.append ys)

/-- Membership of an entry in a listing. -/
def Entries.mem (e : Entry) : Entries → Prop
  | Entries.nil => False
  | Entries.cons x xs => e = x ∨ Entries.mem e xs

/-- Result of `os.listdir` on the directory `walk_directory` is called on. -/
inductive Listing : Type where
  | ok (entries : Entries) : Listing
  | permDenied : Listing
  | notFound : Listing

/-- A diagnostic printed to stderr by `walk_directory`
(`警告: 无权限访问目录 ...` vs `错误: 目录不存在 ...`). -/
inductive Warning : Type where
  | noPermission (dirPath : List String) : Warning
  | dirNotFound (dirPath : List String) : Warning
deriving DecidableEq, Repr

/-- `'/'.join` of a list of path segments: the string form of a
slash-separated path (`os.path.join` on POSIX, and the `.replace('\\', '/')`
normalization is the identity there). -/
def joinSegs : List String → String
  | [] => ""
  | [s] => s
  | s :: rest => s ++ "/" ++ joinSegs rest

/-- `str.lower()`: lower-case every character.  Mapped over the character
list (ASCII case mapping, which coincides with Python's on the characters
that can make the comparison with the ASCII literal `"images"` succeed). -/
def lowerStr (s : String) : String :=
  String.mk (s.data.map Char.toLower)

/-- `should_skip_directory(dir_name, base_path)`:
skip when `dir_name.lower() == 'images'` or `dir_name == '.git'`.
The `base_path` argument is accepted but never read, as in the source. -/
def should_skip_directory (dir_name : String) (base_path : String) : Bool :=
  if lowerStr dir_name = "images" then true
  else if dir_name = ".git" then true
  else false

/-- Length of the longest common prefix of two segment lists
(`len(commonprefix([start_list, path_list]))` inside `os.path.relpath`). -/
def commonPrefixLen : List String → List String → Nat
  | a :: as, b :: bs => if a = b then commonPrefixLen as bs + 1 else 0
  | _, _ => 0

/-- `os.path.relpath(path, start)` on normalized absolute paths given as
segment lists: strip the common prefix, prepend one `".."` per remaining
`start` segment, and return `"."` when nothing is left. -/
def relpathSegs (path start : List String) : List String :=
  let i := commonPrefixLen path start
  let rel := List.replicate (start.length - i) ".." ++ path.drop i
  if rel = [] then ["."] else rel

/-- `os.path.dirname` of the string obtained by joining the segments with
`"/"`: everything before the last separator, `""` for a bare name. -/
def dirnameOfSegs (segs : List String) : String :=
  if segs.length ≤ 1 then "" else joinSegs segs.dropLast

/-- `should_include_file(file_path, root_dir)`:
`rel_path = os.path.relpath(file_path, root_dir)`; return `False` when
`os.path.dirname(rel_path) == '.'`, else `False` when
`'images' in rel_path.split(os.sep)`, else `True`. -/
def should_include_file (file_path : List String) (root_dir : List String) : Bool :=
  let rel := relpathSegs file_path root_dir
  if dirnameOfSegs rel = "." then false
  else if rel.contains "images" then false
  else true

mutual

/-- One iteration of the `for item in items` loop of `walk_directory`:
`dirPath` is the absolute path of the directory being walked (`dir_path`),
`base` the segments of the relative base (`base`, joined with `"/"`), `root`
the non-`None` root directory (`root_dir`).  A subdirectory is first tested
with `should_skip_directory`; recursing into one whose listing fails prints
the corresponding warning and contributes no records; a non-directory entry
is kept when `should_include_file` admits it, with `folder` the slash-joined
base and `name` the entry name. -/
def walkEntry : Entry → List String → List String → List String →
    List FileRecord × List Warning
  | Entry.dir name es, d, b, root =>
      if should_skip_directory name (joinSegs b) then ([], [])
      else walkItems es (d ++ [name]) (b ++ [name]) root
  | Entry.dirPermDenied name, d, b, _ =>
      if should_skip_directory name (joinSegs b) then ([], [])
      else ([], [Warning.noPermission (d ++ [name])])
  | Entry.dirNotFound name, d, b, _ =>
      if should_skip_directory name (joinSegs b) then ([], [])
      else ([], [Warning.dirNotFound (d ++ [name])])
  | Entry.file name, d, b, root =>
      if should_include_file (d ++ [name]) root then
        ([{ folder := joinSegs b, name := name }], [])
      else ([], [])

/-- The whole `for item in items` loop: process the listing in order,
concatenating each entry's records (`results.extend` / `results.append`)
and stderr warnings. -/
def walkItems : Entries → List String → List String → List String →
    List FileRecord × List Warning
  | Entries.nil, _, _, _ => ([], [])
  | Entries.cons e rest, d, b, root =>
      let hd := walkEntry e d b root
      let tl := walkItems rest d b root
      (hd.1 ++ tl.1, hd.2 ++ tl.2)

end

/-- `walk_directory(dir_path, base='', root_dir=None)`: default `root_dir`
to `dir_path` when `None`, run `os.listdir` (the `Listing`), warn and return
`[]` on `PermissionError` / `FileNotFoundError`, else process the items. -/
def walk_directory (l : Listing) (dirPath : List String) (base : List String)
    (rootDir : Option (List String)) : List FileRecord × List Warning :=
  let root := rootDir.getD dirPath
  match l with
  | Listing.ok items => walkItems items dirPath base root
  | Listing.permDenied => ([], [Warning.noPermission dirPath])
  | Listing.notFound => ([], [Warning.dirNotFound dirPath])

/-- The root argument as `main` sees it: missing path, existing non-directory,
or a directory with absolute path `abs` whose listing is `l`. -/
inductive RootPath : Type where
  | missing (arg : String) : RootPath
  | notDirectory (arg : String) : RootPath
  | directory (abs : List String) (l : Listing) : RootPath

/-- A line on stderr: one of `main`'s fatal messages, or a walker warning. -/
inductive Diag : Type where
  | fatalMissing (arg : String) : Diag
  | fatalNotDir (arg : String) : Diag
  | warn (w : Warning) : Diag
deriving DecidableEq, Repr

/-- Observable outcome of running the program: exit code, the serialized
record list on stdout (`none` when nothing was printed), stderr lines. -/
structure MainResult where
  exitCode : Nat
  output : Option (List FileRecord)
  stderr : List Diag
deriving DecidableEq, Repr

/-- `main()`: exit `1` with a stderr message when the path is missing or not
a directory; otherwise call `walk_directory(root_dir, '', root_dir)` on the
absolute root and print the JSON, exiting `0`. -/
def main (r : RootPath) : MainResult :=
  match r with
  | RootPath.missing a => ⟨1, none, [Diag.fatalMissing a]⟩
  | RootPath.notDirectory a => ⟨1, none, [Diag.fatalNotDir a]⟩
  | RootPath.directory abs l =>
      let res := walk_directory l abs [] (some abs)
      ⟨0, some res.1, res.2.map Diag.warn⟩

/-- The tree under a listing has a file named `n` whose parent directory is
reached from the listing by descending through successfully listed
directories along the segment path `p`. -/
def hasFileAt : Entries → List String → String → Prop
  | items, [], n => Entries.mem (Entry.file n) items
  | items, s :: p, n => ∃ es, Entries.mem (Entry.dir s es) items ∧ hasFileAt es p n

/-- The skip predicate rejects exactly the case-insensitive `images` and the
exact `.git` names. -/
theorem should_skip_directory_false_iff (n bp : String) :
    should_skip_directory n bp = false ↔ (lowerStr n ≠ "images" ∧ n ≠ ".git") := by
  unfold should_skip_directory
  split <;> rename_i h1
  · simp [h1]
  · split <;> rename_i h2 <;> simp [h1, h2]

/-- A file found somewhere under a listing is still found after prepending
an entry to that listing. -/
theorem hasFileAt_cons (e : Entry) (items : Entries) (p : List String) (n : String)
    (h : hasFileAt items p n) : hasFileAt (Entries.cons e items) p n := by
  cases p with
  | nil => exact Or.inr h
  | cons s p =>
      obtain ⟨es, hm, hf⟩ := h
      exact ⟨es, Or.inr hm, hf⟩

/-- If joining segments with `/` yields the bare string `.`, then `.` was one
of the segments. -/
theorem dot_mem_of_joinSegs_eq_dot : ∀ (l : List String), joinSegs l = "." → "." ∈ l
  | [], h => absurd h (by decide)
  | [x], h => by
      simp only [joinSegs] at h
      simp [h]
  | x :: y :: t, h => by
      exfalso
      have hm : '/' ∈ (joinSegs (x :: y :: t)).data := by
        show '/' ∈ (x ++ "/" ++ joinSegs (y :: t)).data
        rw [String.data_append, String.data_append]
        exact List.mem_append.2 (Or.inl (List.mem_append.2 (Or.inr (by decide))))
      rw [h] at hm
      exact absurd hm (by decide)

/-- When the target path has no `.` segment, the `dirname` of its relative
path is never the string `.` — the comparison in `should_include_file`
(line 55 of the source) can therefore never be true. -/
theorem dirnameOfSegs_relpathSegs_ne_dot (path start : List String)
    (h : "." ∉ path) : dirnameOfSegs (relpathSegs path start) ≠ "." := by
  intro heq
  unfold dirnameOfSegs at heq
  split at heq
  · exact absurd heq (by decide)
  · rename_i hlen
    have hd : "." ∈ (relpathSegs path start).dropLast :=
      dot_mem_of_joinSegs_eq_dot _ heq
    have hmem : "." ∈ relpathSegs path start := List.mem_of_mem_dropLast hd
    by_cases hnil :
        List.replicate (start.length - commonPrefixLen path start) ".."
          ++ path.drop (commonPrefixLen path start) = []
    · have : relpathSegs path start = ["."] := by simp only [relpathSegs, hnil, if_pos]
      rw [this] at hlen
      exact hlen (by decide)
    · have hrel : relpathSegs path start
          = List.replicate (start.length - commonPrefixLen path start) ".."
            ++ path.drop (commonPrefixLen path start) := by
        simp only [relpathSegs, hnil, if_neg, ite_false]
      rw [hrel] at hmem
      rcases List.mem_append.1 hmem with hrep | hdrop
      · exact absurd (List.eq_of_mem_replicate hrep) (by decide)
      · exact h (List.mem_of_mem_drop hdrop)

/-- Walking the concatenation of two listings concatenates the records and
the warnings: each level is processed in listing order. -/
theorem walkItems_append (xs ys : Entries) (d b root : List String) :
    walkItems (xs.append ys) d b root
      = ((walkItems xs d b root).1 ++ (walkItems ys d b root).1,
         (walkItems xs d b root).2 ++ (walkItems ys d b root).2) :=
  match xs with
  | Entries.nil => by simp [Entries.append, walkItems]
  | Entries.cons e rest => by
      have ih := walkItems_append rest ys d b root
      simp [Entries.append, walkItems, ih]

/-- Every record produced by the walk comes from an actual file of the tree:
its `name` is the file's base name and its `folder` is the slash-joined path
from the walk's base to the file's parent directory, and no directory on
that path has a skippable name (`images` case-insensitively, `.git`). -/
theorem walkItems_sound : ∀ (items : Entries) (d b root : List String) (r : FileRecord),
    r ∈ (walkItems items d b root).1 →
    ∃ p n, hasFileAt items p n ∧ (∀ s ∈ p, lowerStr s ≠ "images" ∧ s ≠ ".git") ∧
      r.folder = joinSegs (b ++ p) ∧ r.name = n
  | Entries.nil, d, b, root, r => by
      intro h
      simp [walkItems] at h
  | Entries.cons (Entry.file name) rest, d, b, root, r => by
      intro h
      simp only [walkItems] at h
      rcases List.mem_append.1 h with h | h
      · simp only [walkEntry] at h
        split at h
        · simp only [List.mem_singleton] at h
          refine ⟨[], name, Or.inl rfl, by simp, ?_, by simp [h]⟩
          simp [h]
        · simp at h
      · obtain ⟨p, n, hF, hseg, hfold, hname⟩ := walkItems_sound rest d b root r h
        exact ⟨p, n, hasFileAt_cons _ rest p n hF, hseg, hfold, hname⟩
  | Entries.cons (Entry.dir name es) rest, d, b, root, r => by
      intro h
      simp only [walkItems] at h
      rcases List.mem_append.1 h with h | h
      · simp only [walkEntry] at h
        split at h
        · simp at h
        · rename_i hskip
          rw [Bool.not_eq_true] at hskip
          obtain ⟨p, n, hF, hseg, hfold, hname⟩ :=
            walkItems_sound es (d ++ [name]) (b ++ [name]) root r h
          refine ⟨name :: p, n, ⟨es, Or.inl rfl, hF⟩, ?_, ?_, hname⟩
          · intro s hs
            rcases List.mem_cons.1 hs with hs | hs
            · subst hs
              exact (should_skip_directory_false_iff s (joinSegs b)).1 hskip
            · exact hseg s hs
          · rw [hfold]
            congr 1
            simp
      · obtain ⟨p, n, hF, hseg, hfold, hname⟩ := walkItems_sound rest d b root r h
        exact ⟨p, n, hasFileAt_cons _ rest p n hF, hseg, hfold, hname⟩
  | Entries.cons (Entry.dirPermDenied name) rest, d, b, root, r => by
      intro h
      simp only [walkItems] at h
      rcases List.mem_append.1 h with h | h
      · simp only [walkEntry] at h
        split at h <;> simp at h
      · obtain ⟨p, n, hF, hseg, hfold, hname⟩ := walkItems_sound rest d b root r h
        exact ⟨p, n, hasFileAt_cons _ rest p n hF, hseg, hfold, hname⟩
  | Entries.cons (Entry.dirNotFound name) rest, d, b, root, r => by
      intro h
      simp only [walkItems] at h
      rcases List.mem_append.1 h with h | h
      · simp only [walkEntry] at h
        split at h <;> simp at h
      · obtain ⟨p, n, hF, hseg, hfold, hname⟩ := walkItems_sound rest d b root r h
        exact ⟨p, n, hasFileAt_cons _ rest p n hF, hseg, hfold, hname⟩

/-- C1: evaluation at the failing input.  For a scan root containing only
the file `a.txt`, the program emits `[{"folder": "", "name": "a.txt"}]`
(a record with an empty `folder`) instead of the empty list the claim
states: `should_include_file` admits the root-level file because
`os.path.dirname` of the bare relative name is `""`, never `"."`. -/
theorem c1_root_level_file_is_emitted :
    main (RootPath.directory ["scan"] (Listing.ok
        (Entries.cons (Entry.file "a.txt") Entries.nil)))
      = ⟨0, some [⟨"", "a.txt"⟩], []⟩
    ∧ should_include_file ["scan", "a.txt"] ["scan"] = true := by
  exact ⟨by decide, by decide⟩

/-- C2: a directory whose name case-insensitively equals `images` or exactly
equals `.git` is neither recursed into nor emitted — prepending it to a
listing leaves the walk's records and warnings unchanged — and consequently
every emitted record's folder is the base extended only by segments that are
neither `images` (case-insensitively) nor `.git`. -/
theorem c2_images_git_subtree_contributes_nothing :
    (∀ (name : String) (es rest : Entries) (d b root : List String),
        should_skip_directory name (joinSegs b) = true →
        walkItems (Entries.cons (Entry.dir name es) rest) d b root
          = walkItems rest d b root)
    ∧ (∀ (items : Entries) (d b root : List String) (r : FileRecord),
        r ∈ (walkItems items d b root).1 →
        ∃ p, r.folder = joinSegs (b ++ p) ∧
          ∀ s ∈ p, lowerStr s ≠ "images" ∧ s ≠ ".git") := by
  constructor
  · intro name es rest d b root hskip
    simp [walkItems, walkEntry, hskip]
  · intro items d b root r hr
    obtain ⟨p, n, _, hseg, hfold, _⟩ := walkItems_sound items d b root r hr
    exact ⟨p, hfold, hseg⟩

/-- C2 witness: a directory named `IMAGES` contributes nothing, and the
record emitted for `sub/b.txt` has a skip-free folder path. -/
theorem c2_images_git_subtree_contributes_nothing_witness :
    walkItems (Entries.cons (Entry.dir "IMAGES"
          (Entries.cons (Entry.file "x.txt") Entries.nil)) Entries.nil)
        ["r"] [] ["r"]
      = walkItems Entries.nil ["r"] [] ["r"]
    ∧ ∃ p, (FileRecord.mk "sub" "b.txt").folder = joinSegs ([] ++ p) ∧
        ∀ s ∈ p, lowerStr s ≠ "images" ∧ s ≠ ".git" :=
  ⟨c2_images_git_subtree_contributes_nothing.1 "IMAGES"
      (Entries.cons (Entry.file "x.txt") Entries.nil) Entries.nil ["r"] [] ["r"]
      (by decide),
   c2_images_git_subtree_contributes_nothing.2
      (Entries.cons (Entry.dir "sub"
        (Entries.cons (Entry.file "b.txt") Entries.nil)) Entries.nil)
      ["r"] [] ["r"] ⟨"sub", "b.txt"⟩ (by decide)⟩

/-- C3: `should_include_file` rejects a file as soon as some segment of its
path relative to the scan root equals `images` with exact case, and admits
a file caught neither by that check nor by the root-level check (the file
does not sit directly under the root, i.e. its relative path has at least
two segments). -/
theorem c3_should_include_file_images_segment :
    ∀ (file_path root_dir : List String),
      ("images" ∈ relpathSegs file_path root_dir →
        should_include_file file_path root_dir = false)
      ∧ ("." ∉ file_path → 2 ≤ (relpathSegs file_path root_dir).length →
          "images" ∉ relpathSegs file_path root_dir →
          should_include_file file_path root_dir = true) := by
  intro fp rd
  constructor
  · intro hmem
    have hc : (relpathSegs fp rd).contains "images" = true := by simpa using hmem
    simp only [should_include_file, hc]
    split <;> simp [hmem]
  · intro hdot hlen hnot
    have hne := dirnameOfSegs_relpathSegs_ne_dot fp rd hdot
    have hc : (relpathSegs fp rd).contains "images" = false := by
      rw [Bool.eq_false_iff]
      intro hcc
      exact hnot (by simpa using hcc)
    simp only [should_include_file, hne, hc]
    simp [hnot]

/-- C3 witness: `sub/images/f.png` and the bare `images` entry are rejected,
`sub/deep/e.txt` is admitted. -/
theorem c3_should_include_file_images_segment_witness :
    should_include_file ["r", "sub", "images", "f.png"] ["r"] = false
    ∧ should_include_file ["r", "sub", "images"] ["r"] = false
    ∧ should_include_file ["r", "sub", "deep", "e.txt"] ["r"] = true :=
  ⟨(c3_should_include_file_images_segment ["r", "sub", "images", "f.png"] ["r"]).1
      (by decide),
   (c3_should_include_file_images_segment ["r", "sub", "images"] ["r"]).1
      (by decide),
   (c3_should_include_file_images_segment ["r", "sub", "deep", "e.txt"] ["r"]).2
      (by decide) (by decide) (by decide)⟩

/-- C4: for the root containing only `sub/deep/e.txt` the output is exactly
`[{"folder": "sub/deep", "name": "e.txt"}]`, and in general every emitted
record describes an actual file of the tree: `folder` is the slash-joined
path from the base to the file's parent directory and `name` its base name. -/
theorem c4_record_folder_and_name :
    main (RootPath.directory ["scan"] (Listing.ok
        (Entries.cons (Entry.dir "sub"
          (Entries.cons (Entry.dir "deep"
            (Entries.cons (Entry.file "e.txt") Entries.nil)) Entries.nil)) Entries.nil)))
      = ⟨0, some [⟨"sub/deep", "e.txt"⟩], []⟩
    ∧ ∀ (items : Entries) (d b root : List String) (r : FileRecord),
        r ∈ (walkItems items d b root).1 →
        ∃ p n, hasFileAt items p n ∧ r.folder = joinSegs (b ++ p) ∧ r.name = n := by
  refine ⟨by decide, ?_⟩
  intro items d b root r hr
  obtain ⟨p, n, hF, _, hfold, hname⟩ := walkItems_sound items d b root r hr
  exact ⟨p, n, hF, hfold, hname⟩

/-- C4 witness: the record for `sub/b.txt` corresponds to the file `b.txt`
sitting under the `sub` directory of the tree. -/
theorem c4_record_folder_and_name_witness :
    ∃ p n, hasFileAt (Entries.cons (Entry.dir "sub"
        (Entries.cons (Entry.file "b.txt") Entries.nil)) Entries.nil) p n
      ∧ (FileRecord.mk "sub" "b.txt").folder = joinSegs ([] ++ p)
      ∧ (FileRecord.mk "sub" "b.txt").name = n :=
  c4_record_folder_and_name.2
    (Entries.cons (Entry.dir "sub"
      (Entries.cons (Entry.file "b.txt") Entries.nil)) Entries.nil)
    ["r"] [] ["r"] ⟨"sub", "b.txt"⟩ (by decide)

/-- C5: a directory whose listing raises `PermissionError` yields a warning
and an empty subtree; a vanished directory yields a distinct warning and an
empty subtree; a failing subtree does not disturb its siblings' records; and
`main` still exits with code `0` whenever the root is a directory. -/
theorem c5_listing_failures_warn_and_continue :
    (∀ (d b : List String) (rt : Option (List String)),
        walk_directory Listing.permDenied d b rt = ([], [Warning.noPermission d]))
    ∧ (∀ (d b : List String) (rt : Option (List String)),
        walk_directory Listing.notFound d b rt = ([], [Warning.dirNotFound d]))
    ∧ (∀ d : List String, Warning.noPermission d ≠ Warning.dirNotFound d)
    ∧ (∀ (name : String) (rest : Entries) (d b root : List String),
        should_skip_directory name (joinSegs b) = false →
        walkItems (Entries.cons (Entry.dirPermDenied name) rest) d b root
          = ((walkItems rest d b root).1,
             Warning.noPermission (d ++ [name]) :: (walkItems rest d b root).2))
    ∧ (∀ (abs : List String) (l : Listing),
        (main (RootPath.directory abs l)).exitCode = 0) := by
  refine ⟨fun d b rt => rfl, fun d b rt => rfl,
    fun d h => Warning.noConfusion h, ?_, fun abs l => rfl⟩
  intro name rest d b root hskip
  simp [walkItems, walkEntry, hskip]

/-- C5 witness: an unreadable directory `locked` next to `sub/b.txt` leaves
the sibling's record intact and prepends the permission warning, and the
whole program run still exits `0` with the sibling record in the output. -/
theorem c5_listing_failures_warn_and_continue_witness :
    walkItems (Entries.cons (Entry.dirPermDenied "locked")
          (Entries.cons (Entry.dir "sub"
            (Entries.cons (Entry.file "b.txt") Entries.nil)) Entries.nil))
        ["r"] [] ["r"]
      = ((walkItems (Entries.cons (Entry.dir "sub"
            (Entries.cons (Entry.file "b.txt") Entries.nil)) Entries.nil)
            ["r"] [] ["r"]).1,
         Warning.noPermission ["r", "locked"]
           :: (walkItems (Entries.cons (Entry.dir "sub"
                (Entries.cons (Entry.file "b.txt") Entries.nil)) Entries.nil)
                ["r"] [] ["r"]).2)
    ∧ main (RootPath.directory ["r"] (Listing.ok
          (Entries.cons (Entry.dirPermDenied "locked")
            (Entries.cons (Entry.dir "sub"
              (Entries.cons (Entry.file "b.txt") Entries.nil)) Entries.nil))))
        = ⟨0, some [⟨"sub", "b.txt"⟩],
            [Diag.warn (Warning.noPermission ["r", "locked"])]⟩ :=
  ⟨c5_listing_failures_warn_and_continue.2.2.2.1 "locked"
      (Entries.cons (Entry.dir "sub"
        (Entries.cons (Entry.file "b.txt") Entries.nil)) Entries.nil)
      ["r"] [] ["r"] (by decide),
   by decide⟩

/-- C6: `main` exits `1` with a diagnostic on stderr and no output exactly
for a missing or non-directory root; for a directory root it exits `0` and
prints the walk's records, whatever warnings the walk produced. -/
theorem c6_exit_code_discipline :
    (∀ a : String, main (RootPath.missing a) = ⟨1, none, [Diag.fatalMissing a]⟩)
    ∧ (∀ a : String, main (RootPath.notDirectory a) = ⟨1, none, [Diag.fatalNotDir a]⟩)
    ∧ (∀ (abs : List String) (l : Listing),
        (main (RootPath.directory abs l)).exitCode = 0
        ∧ (main (RootPath.directory abs l)).output
            = some (walk_directory l abs [] (some abs)).1) :=
  ⟨fun _ => rfl, fun _ => rfl, fun _ _ => ⟨rfl, rfl⟩⟩

/-- C7: the walk processes a level in listing order — records of a split
listing are the records of the two parts in order — and the records of a
non-skipped subdirectory appear contiguously, before the remaining
siblings' records. -/
theorem c7_depth_first_listing_order :
    (∀ (xs ys : Entries) (d b root : List String),
        (walkItems (xs.append ys) d b root).1
          = (walkItems xs d b root).1 ++ (walkItems ys d b root).1)
    ∧ (∀ (name : String) (es rest : Entries) (d b root : List String),
        should_skip_directory name (joinSegs b) = false →
        (walkItems (Entries.cons (Entry.dir name es) rest) d b root).1
          = (walkItems es (d ++ [name]) (b ++ [name]) root).1
            ++ (walkItems rest d b root).1) := by
  constructor
  · intro xs ys d b root
    rw [walkItems_append]
  · intro name es rest d b root hskip
    simp [walkItems, walkEntry, hskip]

/-- C7 witness: the subtree of `sub` is spliced contiguously before the
sibling file list. -/
theorem c7_depth_first_listing_order_witness :
    (walkItems (Entries.cons (Entry.dir "sub"
          (Entries.cons (Entry.file "b.txt") Entries.nil))
          (Entries.cons (Entry.dir "t"
            (Entries.cons (Entry.file "c.txt") Entries.nil)) Entries.nil))
        ["r"] [] ["r"]).1
      = (walkItems (Entries.cons (Entry.file "b.txt") Entries.nil)
            (["r"] ++ ["sub"]) ([] ++ ["sub"]) ["r"]).1
        ++ (walkItems (Entries.cons (Entry.dir "t"
              (Entries.cons (Entry.file "c.txt") Entries.nil)) Entries.nil)
              ["r"] [] ["r"]).1 :=
  c7_depth_first_listing_order.2 "sub"
    (Entries.cons (Entry.file "b.txt") Entries.nil)
    (Entries.cons (Entry.dir "t"
      (Entries.cons (Entry.file "c.txt") Entries.nil)) Entries.nil)
    ["r"] [] ["r"] (by decide)

/-- C8: the walk is a function of the filesystem state: two runs over equal
listing states produce equal `(folder, name)` sequences, hence equal sets of
records. -/
theorem c8_rescan_same_records :
    ∀ (l1 l2 : Listing) (d b : List String) (rt : Option (List String)), l1 = l2 →
      ((walk_directory l1 d b rt).1.map fun r => (r.folder, r.name))
        = ((walk_directory l2 d b rt).1.map fun r => (r.folder, r.name)) := by
  intro l1 l2 d b rt h
  rw [h]

/-- C8 witness: rescanning the one-file tree gives the same pairs. -/
theorem c8_rescan_same_records_witness :
    ((walk_directory (Listing.ok (Entries.cons (Entry.dir "sub"
          (Entries.cons (Entry.file "b.txt") Entries.nil)) Entries.nil))
        ["r"] [] none).1.map fun r => (r.folder, r.name))
      = ((walk_directory (Listing.ok (Entries.cons (Entry.dir "sub"
            (Entries.cons (Entry.file "b.txt") Entries.nil)) Entries.nil))
          ["r"] [] none).1.map fun r => (r.folder, r.name)) :=
  c8_rescan_same_records _ _ ["r"] [] none rfl

/-- C9: `should_skip_directory` never reads its `base_path` argument: the
skip decision depends only on the directory's name, not on its location. -/
theorem c9_skip_ignores_base_path :
    ∀ (dir_name bp1 bp2 : String),
      should_skip_directory dir_name bp1 = should_skip_directory dir_name bp2 :=
  fun _ _ _ => rfl

/-- C10: omitting `root_dir` (passing `None`) makes the walked directory
itself the root: the walk equals the walk with `root_dir = dir_path`. -/
theorem c10_default_root_dir :
    ∀ (l : Listing) (dirPath base : List String),
      walk_directory l dirPath base none = walk_directory l dirPath base (some dirPath) :=
  fun _ _ _ => rfl

end GenerateFileTree
